/-
Verification of the value-normalization and script-generation core of the
ssubmit repository (src/cli.rs, src/lib.rs, src/main.rs).

The Rust code is shallowly embedded as executable Lean definitions:
  * `Duration` models `std::time::Duration` (whole seconds + nanoseconds).
  * `to_slurm_time` embeds `SlurmTime::to_slurm_time` (src/lib.rs:158-184).
  * `slurmTimeMatch` embeds the anchored regex
    `^(?:(?P<days>\d+)-)?(?:(?P<hours>\d+):)?(?:(?P<minutes>\d+):)?(?P<seconds>\d+)?$`
    used by `parse_time` (src/cli.rs:238-241) as an executable matcher: the
    regex language is exactly `(num "-")? (num ":")? (num ":")? (num)?` with
    `num` a nonempty digit string, which the matcher decides by splitting on
    the dash and on colons.
  * `parse_time` embeds `parse_time` (src/cli.rs:237-251); the external
    `duration_str::parse` crate call is a function parameter `dp`.
  * `byteParseStr` models the external `byte_unit::Byte::parse_str` call with
    exact arithmetic: a decimal number, optional spaces, and a
    case-insensitive unit suffix drawn from B/K/KB/KiB/M/MB/MiB/G/GB/GiB/
    T/TB/TiB/P/PB/PiB/E/EB/EiB, scaled decimally (binary for the iB forms)
    and truncated to whole bytes.  Error messages model the prefix of the
    crate's messages pinned by the repository's own tests
    (src/cli.rs:593-597: "the character 'z' is incorrect").
  * `parse_memory` embeds `parse_memory` (src/cli.rs:265-289); the f64
    megabyte/kilobyte conversion and `ceil` are modelled with exact rational
    arithmetic in `normalize_from_bytes`.
  * `make_submission_script` is declared in the library crate but its
    definition is not present under src/ (only its caller in src/main.rs);
    it is modelled from the specification.
-/
import Mathlib

/-- Model of `std::time::Duration`: whole seconds and subsecond nanoseconds. -/
structure Duration where
  secs : Nat
  nanos : Nat
deriving DecidableEq, Repr

/-- Embeds `SlurmTime::to_slurm_time` for `Duration` (src/lib.rs:158-184):
`is_zero` check, then `remainder = max(as_secs(), 1)` and the cascade of
`< 60` branches producing `0:{s}`, `{m}:{s}` or `{h}:{m}:{s}`. -/
def to_slurm_time (d : Duration) : String :=
  if d.secs = 0 ∧ d.nanos = 0 then "0"
  else
    let r := max d.secs 1
    if r < 60 then "0:" ++ toString r
    else
      let secs := r % 60
      let r2 := r / 60
      if r2 < 60 then toString r2 ++ ":" ++ toString secs
      else toString (r2 / 60) ++ ":" ++ toString (r2 % 60) ++ ":" ++ toString secs

/-- Splits a character list on a separator character; mirrors the field
structure the anchored slurm-time regex imposes.  Always returns a
nonempty list of (possibly empty) fields. -/
def splitChar (sep : Char) : List Char → List (List Char)
  | [] => [[]]
  | c :: cs =>
    if c = sep then [] :: splitChar sep cs
    else
      match splitChar sep cs with
      | [] => [[c]]
      | p :: ps => (c :: p) :: ps

/-- A nonempty all-digit field (`\d+` in the regex). -/
def numField (l : List Char) : Bool :=
  !l.isEmpty && l.all (fun c => c.isDigit)

/-- The colon-separated part of the slurm-time regex:
`(?:(\d+):)?(?:(\d+):)?(\d+)?` — up to two nonempty digit fields each
followed by a colon, then an optional digit field. -/
def colonPartOk (ps : List (List Char)) : Bool :=
  match ps with
  | [a] => a.isEmpty || numField a
  | [a, b] => numField a && (b.isEmpty || numField b)
  | [a, b, c] => numField a && numField b && (c.isEmpty || numField c)
  | _ => false

/-- Executable matcher for the anchored regex
`^(?:(\d+)-)?(?:(\d+):)?(?:(\d+):)?(\d+)?$` of src/cli.rs:238-241. -/
def slurmTimeMatch (s : String) : Bool :=
  match splitChar '-' s.data with
  | [t] => colonPartOk (splitChar ':' t)
  | [d, t] => numField d && colonPartOk (splitChar ':' t)
  | _ => false

/-- Embeds `parse_time` (src/cli.rs:237-251).  The external crate call
`duration_str::parse` is abstracted as the parameter `dp`; on regex match the
input is returned unchanged, otherwise the parsed duration is formatted with
`to_slurm_time`, and a parse failure is wrapped in the
"{s} is not a valid time: {e}" message. -/
def parse_time (dp : String → Except String Duration) (s : String) :
    Except String String :=
  if slurmTimeMatch s then .ok s
  else
    match dp s with
    | .ok dur => .ok (to_slurm_time dur)
    | .error e => .error (s ++ " is not a valid time: " ++ e)

/-- A stand-in for the external free-form duration parser, used only to
instantiate theorems that hold for every such parser. -/
def noFreeform : String → Except String Duration :=
  fun _ => .error "free-form duration parsing is external"

/-- Value of a digit string, most significant digit first. -/
def digitsToNat (ds : List Char) : Nat :=
  ds.foldl (fun acc c => acc * 10 + (c.toNat - 48)) 0

/-- Models the numeric part accepted by `byte_unit::Byte::parse_str`:
`digits+` optionally followed by `.` `digits+`.  Returns the exact value as
a numerator/denominator pair `(num, scale)` (value = num / scale) together
with the unconsumed characters; the error messages model the crate's
value errors. -/
def parseNumber (l : List Char) : Except String (Nat × Nat × List Char) :=
  let ds := l.takeWhile (fun c => c.isDigit)
  let rest := l.dropWhile (fun c => c.isDigit)
  if ds.isEmpty then
    .error (match l with
      | [] => "no value can be found"
      | c :: _ => "the character '" ++ c.toString ++ "' is not a number")
  else
    match rest with
    | '.' :: r2 =>
      let fs := r2.takeWhile (fun c => c.isDigit)
      let r3 := r2.dropWhile (fun c => c.isDigit)
      if fs.isEmpty then .error "the character '.' is not a number"
      else .ok (digitsToNat ds * 10 ^ fs.length + digitsToNat fs, 10 ^ fs.length, r3)
    | _ => .ok (digitsToNat ds, 1, rest)

/-- The unit error message: models the prefix of the crate's
`UnitParseError` display, as pinned by the repository test
`parse_memory_invalid_unit` (src/cli.rs:593-597). -/
def unitErrChar (c : Char) : String :=
  "the character '" ++ c.toString ++ "' is incorrect"

/-- After a complete unit, no further characters are allowed. -/
def expectNoMore (v : Nat) : List Char → Except String Nat
  | [] => .ok v
  | c :: _ => .error (unitErrChar c)

/-- Continuation after a recognized unit prefix letter (k/m/g/t/p/e):
optionally `b` (decimal) or `i`/`ib` (binary). -/
def unitTail (dec bin : Nat) : List Char → Except String Nat
  | [] => .ok dec
  | c :: rest =>
    if c.toLower = 'b' then expectNoMore dec rest
    else if c.toLower = 'i' then
      match rest with
      | [] => .ok bin
      | c2 :: rest2 =>
        if c2.toLower = 'b' then expectNoMore bin rest2
        else .error (unitErrChar c2)
    else .error (unitErrChar c)

/-- Case-insensitive unit suffix recognized by the modelled
`byte_unit::Byte::parse_str`, mapped to its byte scale factor.  An empty
suffix means bytes. -/
def unitFactor : List Char → Except String Nat
  | [] => .ok 1
  | c :: rest =>
    if c.toLower = 'b' then expectNoMore 1 rest
    else if c.toLower = 'k' then unitTail 1000 1024 rest
    else if c.toLower = 'm' then unitTail 1000000 (1024 * 1024) rest
    else if c.toLower = 'g' then unitTail 1000000000 (1024 * 1024 * 1024) rest
    else if c.toLower = 't' then unitTail 1000000000000 (1024 * 1024 * 1024 * 1024) rest
    else if c.toLower = 'p' then
      unitTail 1000000000000000 (1024 * 1024 * 1024 * 1024 * 1024) rest
    else if c.toLower = 'e' then
      unitTail 1000000000000000000 (1024 * 1024 * 1024 * 1024 * 1024 * 1024) rest
    else .error (unitErrChar c)

/-- Leading and trailing space removal (the crate trims its input). -/
def trimSpaces (l : List Char) : List Char :=
  ((l.dropWhile (fun c => c = ' ')).reverse.dropWhile (fun c => c = ' ')).reverse

/-- Models `byte_unit::Byte::parse_str(s, true)` with exact arithmetic:
trim, parse the decimal number, skip spaces, parse the unit suffix, and
truncate `value * factor` to whole bytes. -/
def byteParseStr (s : String) : Except String Nat :=
  match parseNumber (trimSpaces s.data) with
  | .error e => .error e
  | .ok (num, scale, rest) =>
    match unitFactor (rest.dropWhile (fun c => c = ' ')) with
    | .error e => .error e
    | .ok f => .ok (num * f / scale)

/-- Embeds the pre-processing step of `parse_memory` (src/cli.rs:270-274):
if no character of the input is ASCII-alphabetic, append the implicit
megabyte unit `M`. -/
def memPreprocess (s : String) : String :=
  if s.data.all (fun c => !c.isAlpha) then s ++ "M" else s

/-- Embeds the unit conversion of `parse_memory` (src/cli.rs:278-288):
the byte count is viewed in megabytes; if that value is `< 1.0` the decimal
kilobyte value is used with tag `K`, otherwise the megabyte value with tag
`M`; the chosen value is rounded up (`ceil`) to an integer.  The f64
arithmetic of the source is modelled exactly over `ℚ`. -/
def normalize_from_bytes (b : Nat) : String :=
  if (b : ℚ) / 1000000 < 1 then toString ((⌈(b : ℚ) / 1000⌉).toNat) ++ "K"
  else toString ((⌈(b : ℚ) / 1000000⌉).toNat) ++ "M"

/-- Embeds `parse_memory` (src/cli.rs:265-289): the `"0"` sentinel returns
immediately; otherwise the (possibly `M`-suffixed) input is parsed to a byte
quantity and normalized. -/
def parse_memory (s : String) : Except String String :=
  if s = "0" then .ok "0"
  else
    match byteParseStr (memPreprocess s) with
    | .error e => .error e
    | .ok b => .ok (normalize_from_bytes b)

/-- States §4.2 of the spec directly with integer ceiling division:
below one (decimal) megabyte the kilobyte count is emitted with tag `K`,
otherwise the megabyte count with tag `M`, each rounded up. -/
def normalize_memory_spec (b : Nat) : String :=
  if b < 1000000 then toString ((b + 999) / 1000) ++ "K"
  else toString ((b + 999999) / 1000000) ++ "M"

/-- Modelled from the spec: the shell-options line of §3/§4.3 — empty
set-options give an empty line, otherwise a `set -<opts>` line. -/
def set_line (set_opts : String) : String :=
  if set_opts = "" then "" else "set -" ++ set_opts

/-- Modelled from the spec: the lines of the submission script built by
`make_submission_script`, whose definition is not under src/ (only its call
site, src/main.rs:35-44, is).  Per §4.3 the fixed template is shebang,
job-name directive, memory directive, time directive, error-path directive,
output-path directive, shell-options line, blank line, command; when the
memory value is the sentinel `"0"` the memory directive line is omitted
entirely. -/
def script_lines (shebang set_opts name memory time error output command : String) :
    List String :=
  [shebang, "#SBATCH --job-name=" ++ name]
    ++ (if memory = "0" then [] else ["#SBATCH --mem=" ++ memory])
    ++ ["#SBATCH --time=" ++ time,
        "#SBATCH --error=" ++ error,
        "#SBATCH --output=" ++ output,
        set_line set_opts,
        "",
        command]

/-- Modelled from the spec: `make_submission_script` renders the template
lines joined by newlines with a trailing newline (§4.3, §8). -/
def make_submission_script
    (shebang set_opts name memory time error output command : String) : String :=
  String.intercalate "\n"
      (script_lines shebang set_opts name memory time error output command)
    ++ "\n"

deriving instance DecidableEq for Except

/-- Exact integer form of the rational ceiling of `b / k`. -/
theorem toNat_ceil_div (b k : Nat) (hk : 0 < k) :
    (⌈((b : Nat) : ℚ) / ((k : Nat) : ℚ)⌉).toNat = (b + k - 1) / k := by
  have hkq : (0 : ℚ) < (k : ℚ) := by exact_mod_cast hk
  obtain ⟨m, hm⟩ : ∃ m, (b + k - 1) / k = m := ⟨_, rfl⟩
  have h1 : b ≤ k * m := by
    have hdm := Nat.div_add_mod (b + k - 1) k
    have hrk : (b + k - 1) % k < k := Nat.mod_lt _ hk
    rw [hm] at hdm
    generalize k * m = K at hdm ⊢
    omega
  have h2 : k * m < b + k := by
    have hdm := Nat.div_add_mod (b + k - 1) k
    rw [hm] at hdm
    generalize k * m = K at hdm ⊢
    omega
  rw [hm]
  have hle : ⌈(b : ℚ) / (k : ℚ)⌉ ≤ (m : ℤ) := by
    rw [Int.ceil_le, div_le_iff₀ hkq]
    have h1q : (b : ℚ) ≤ (k : ℚ) * (m : ℚ) := by exact_mod_cast h1
    rw [Int.cast_natCast]
    linarith
  have hge : (m : ℤ) - 1 < ⌈(b : ℚ) / (k : ℚ)⌉ := by
    rw [Int.lt_ceil, lt_div_iff₀ hkq]
    have h2q : (k : ℚ) * (m : ℚ) < (b : ℚ) + (k : ℚ) := by exact_mod_cast h2
    push_cast
    linarith
  have heq : ⌈(b : ℚ) / (k : ℚ)⌉ = (m : ℤ) := by omega
  rw [heq, Int.toNat_natCast]

/-- The source's rational-arithmetic branch agrees with the spec's integer
ceiling-division description everywhere. -/
theorem normalize_from_bytes_eq_spec (b : Nat) :
    normalize_from_bytes b = normalize_memory_spec b := by
  have hcond : ((b : ℚ) / 1000000 < 1) ↔ b < 1000000 := by
    rw [div_lt_one (by norm_num)]
    exact_mod_cast Iff.rfl
  have hK := toNat_ceil_div b 1000 (by norm_num)
  have hM := toNat_ceil_div b 1000000 (by norm_num)
  have eK : b + 1000 - 1 = b + 999 := by omega
  have eM : b + 1000000 - 1 = b + 999999 := by omega
  rw [eK] at hK
  rw [eM] at hM
  unfold normalize_from_bytes normalize_memory_spec
  by_cases hb : b < 1000000
  · rw [if_pos (hcond.mpr hb), if_pos hb]
    norm_num at hK
    rw [hK]
  · rw [if_neg (fun h => hb (hcond.mp h)), if_neg hb]
    norm_num at hM
    rw [hM]

/-- On any non-sentinel input whose byte parse succeeds, `parse_memory`
returns the spec-side normalization of the byte count. -/
theorem parse_memory_of_bytes (s : String) (b : Nat) (hs : s ≠ "0")
    (hb : byteParseStr (memPreprocess s) = .ok b) :
    parse_memory s = .ok (normalize_memory_spec b) := by
  unfold parse_memory
  rw [if_neg hs, hb]
  exact congrArg Except.ok (normalize_from_bytes_eq_spec b)

/-- C1: for every memory input string other than the sentinel "0" that
parses to a byte quantity `b`, `parse_memory` converts to decimal megabytes;
when that value is below 1 it emits the decimal kilobyte count with tag `K`,
otherwise the megabyte count with tag `M`, and the emitted integer is the
ceiling of the chosen fractional value (here the exact integer ceiling
division of the byte count). -/
theorem parse_memory_ceiling_conversion (s : String) (b : Nat)
    (hs : s ≠ "0") (hb : byteParseStr (memPreprocess s) = .ok b) :
    parse_memory s = .ok (normalize_memory_spec b) :=
  parse_memory_of_bytes s b hs hb

/-- Witness for C1 at the spec's own example: 5001 KB is 5001000 bytes,
whose megabyte value 5.001 has ceiling 6, giving "6M". -/
theorem parse_memory_ceiling_conversion_witness :
    "5001kb" ≠ "0" ∧ byteParseStr (memPreprocess "5001kb") = .ok 5001000 ∧
    parse_memory "5001kb" = .ok (normalize_memory_spec 5001000) ∧
    normalize_memory_spec 5001000 = "6M" :=
  ⟨by decide, by decide,
   parse_memory_ceiling_conversion "5001kb" 5001000 (by decide) (by decide),
   by decide⟩

/-- C2: the sentinel input "0" is returned unchanged, with no unit
processing, conversion or rounding. -/
theorem parse_memory_sentinel_zero : parse_memory "0" = .ok "0" := by decide

/-- C10: only the literal "0" is the sentinel; other zero-valued inputs such
as "0.0", "00" and "0M" go through unit processing and normalize to "0K"
(zero kilobytes after the sub-megabyte conversion and ceiling), and this
holds for every non-sentinel input parsing to zero bytes. -/
theorem parse_memory_zero_valued_not_sentinel :
    parse_memory "0.0" = .ok "0K" ∧ parse_memory "00" = .ok "0K" ∧
    parse_memory "0M" = .ok "0K" ∧
    ∀ s : String, s ≠ "0" → byteParseStr (memPreprocess s) = .ok 0 →
      parse_memory s = .ok "0K" := by
  have h0 : ∀ s : String, s ≠ "0" → byteParseStr (memPreprocess s) = .ok 0 →
      parse_memory s = .ok "0K" := by
    intro s hs hb
    rw [parse_memory_of_bytes s 0 hs hb]
    decide
  exact ⟨h0 "0.0" (by decide) (by decide), h0 "00" (by decide) (by decide),
         h0 "0M" (by decide) (by decide), h0⟩

/-- Witness for C10's universally quantified part at the input "0kb". -/
theorem parse_memory_zero_valued_not_sentinel_witness :
    "0kb" ≠ "0" ∧ byteParseStr (memPreprocess "0kb") = .ok 0 ∧
    parse_memory "0kb" = .ok "0K" :=
  ⟨by decide, by decide,
   parse_memory_zero_valued_not_sentinel.2.2.2 "0kb" (by decide) (by decide)⟩

/-- Any error from `expectNoMore` names a character of its input. -/
theorem expectNoMore_error (v : Nat) (l : List Char) (e : String)
    (h : expectNoMore v l = .error e) : ∃ c, c ∈ l ∧ e = unitErrChar c := by
  cases l with
  | nil => simp [expectNoMore] at h
  | cons c cs =>
    refine ⟨c, List.mem_cons_self _ _, ?_⟩
    simp [expectNoMore] at h
    exact h.symm

/-- Any error from `unitTail` names a character of its input. -/
theorem unitTail_error (dec bin : Nat) (l : List Char) (e : String)
    (h : unitTail dec bin l = .error e) : ∃ c, c ∈ l ∧ e = unitErrChar c := by
  cases l with
  | nil => simp [unitTail] at h
  | cons c rest =>
    simp only [unitTail] at h
    by_cases hb : c.toLower = 'b'
    · rw [if_pos hb] at h
      obtain ⟨c2, hc2, he⟩ := expectNoMore_error _ _ _ h
      exact ⟨c2, List.mem_cons_of_mem _ hc2, he⟩
    · rw [if_neg hb] at h
      by_cases hi : c.toLower = 'i'
      · rw [if_pos hi] at h
        cases rest with
        | nil => simp at h
        | cons c2 rest2 =>
          dsimp only at h
          by_cases hb2 : c2.toLower = 'b'
          · rw [if_pos hb2] at h
            obtain ⟨c3, hc3, he⟩ := expectNoMore_error _ _ _ h
            refine ⟨c3, ?_, he⟩
            exact List.mem_cons_of_mem _ (List.mem_cons_of_mem _ hc3)
          · rw [if_neg hb2] at h
            refine ⟨c2, List.mem_cons_of_mem _ (List.mem_cons_self _ _), ?_⟩
            injection h with h2
            exact h2.symm
      · rw [if_neg hi] at h
        refine ⟨c, List.mem_cons_self _ _, ?_⟩
        injection h with h2
        exact h2.symm

/-- Any error from `unitFactor` names a character of its input. -/
theorem unitFactor_error (l : List Char) (e : String)
    (h : unitFactor l = .error e) : ∃ c, c ∈ l ∧ e = unitErrChar c := by
  cases l with
  | nil => simp [unitFactor] at h
  | cons c rest =>
    simp only [unitFactor] at h
    by_cases h1 : c.toLower = 'b'
    · rw [if_pos h1] at h
      obtain ⟨c2, hc2, he⟩ := expectNoMore_error _ _ _ h
      exact ⟨c2, List.mem_cons_of_mem _ hc2, he⟩
    · rw [if_neg h1] at h
      by_cases h2 : c.toLower = 'k'
      · rw [if_pos h2] at h
        obtain ⟨c2, hc2, he⟩ := unitTail_error _ _ _ _ h
        exact ⟨c2, List.mem_cons_of_mem _ hc2, he⟩
      · rw [if_neg h2] at h
        by_cases h3 : c.toLower = 'm'
        · rw [if_pos h3] at h
          obtain ⟨c2, hc2, he⟩ := unitTail_error _ _ _ _ h
          exact ⟨c2, List.mem_cons_of_mem _ hc2, he⟩
        · rw [if_neg h3] at h
          by_cases h4 : c.toLower = 'g'
          · rw [if_pos h4] at h
            obtain ⟨c2, hc2, he⟩ := unitTail_error _ _ _ _ h
            exact ⟨c2, List.mem_cons_of_mem _ hc2, he⟩
          · rw [if_neg h4] at h
            by_cases h5 : c.toLower = 't'
            · rw [if_pos h5] at h
              obtain ⟨c2, hc2, he⟩ := unitTail_error _ _ _ _ h
              exact ⟨c2, List.mem_cons_of_mem _ hc2, he⟩
            · rw [if_neg h5] at h
              by_cases h6 : c.toLower = 'p'
              · rw [if_pos h6] at h
                obtain ⟨c2, hc2, he⟩ := unitTail_error _ _ _ _ h
                exact ⟨c2, List.mem_cons_of_mem _ hc2, he⟩
              · rw [if_neg h6] at h
                by_cases h7 : c.toLower = 'e'
                · rw [if_pos h7] at h
                  obtain ⟨c2, hc2, he⟩ := unitTail_error _ _ _ _ h
                  exact ⟨c2, List.mem_cons_of_mem _ hc2, he⟩
                · rw [if_neg h7] at h
                  refine ⟨c, List.mem_cons_self _ _, ?_⟩
                  injection h with h8
                  exact h8.symm

/-- C8: `parse_memory` fails exactly when the numeric portion cannot be
parsed or the unit suffix is not in the recognized set; a unit error names
the offending character, and in particular "5z" fails naming 'z'. -/
theorem parse_memory_error_characterization :
    parse_memory "5z" = .error "the character 'z' is incorrect" ∧
    (∀ (l : List Char) (e : String), unitFactor l = .error e →
      ∃ c, c ∈ l ∧ e = unitErrChar c) ∧
    (∀ (s e : String), s ≠ "0" →
      (parse_memory s = .error e ↔
        parseNumber (trimSpaces (memPreprocess s).data) = .error e ∨
        ∃ num scale rest,
          parseNumber (trimSpaces (memPreprocess s).data) =
            .ok (num, scale, rest) ∧
          unitFactor (rest.dropWhile (fun c => c = ' ')) = .error e)) := by
  refine ⟨by decide, unitFactor_error, ?_⟩
  intro s e hs
  unfold parse_memory byteParseStr
  rw [if_neg hs]
  cases hpn : parseNumber (trimSpaces (memPreprocess s).data) with
  | error e2 =>
    dsimp only
    constructor
    · intro h
      injection h with h2
      exact Or.inl (by rw [h2])
    · rintro (h | ⟨num, scale, rest, hok, _⟩)
      · injection h with h2
        rw [h2]
      · exact absurd hok (by simp)
  | ok t =>
    obtain ⟨num0, scale0, rest0⟩ := t
    dsimp only
    cases huf : unitFactor (rest0.dropWhile (fun c => c = ' ')) with
    | error e2 =>
      dsimp only
      constructor
      · intro h
        injection h with h2
        exact Or.inr ⟨num0, scale0, rest0, rfl, by rw [h2] at huf; exact huf⟩
      · rintro (h | ⟨num, scale, rest, hok, herr⟩)
        · exact absurd h (by simp)
        · injection hok with h2
          obtain ⟨e1, e2', e3⟩ : num0 = num ∧ scale0 = scale ∧ rest0 = rest := by
            constructor
            · exact congrArg Prod.fst h2
            · exact ⟨congrArg Prod.fst (congrArg Prod.snd h2),
                congrArg Prod.snd (congrArg Prod.snd h2)⟩
          subst e1; subst e2'; subst e3
          rw [huf] at herr
          injection herr with h3
          rw [h3]
    | ok f =>
      dsimp only
      constructor
      · intro h
        exact absurd h (by simp)
      · rintro (h | ⟨num, scale, rest, hok, herr⟩)
        · exact absurd h (by simp)
        · injection hok with h2
          obtain ⟨e1, e2', e3⟩ : num0 = num ∧ scale0 = scale ∧ rest0 = rest := by
            constructor
            · exact congrArg Prod.fst h2
            · exact ⟨congrArg Prod.fst (congrArg Prod.snd h2),
                congrArg Prod.snd (congrArg Prod.snd h2)⟩
          subst e1; subst e2'; subst e3
          rw [huf] at herr
          exact absurd herr (by simp)

/-- Witness for C8: the input "q5" fails on the numeric portion; the input
"5z" fails on the unit suffix, naming 'z'. -/
theorem parse_memory_error_characterization_witness :
    "q5" ≠ "0" ∧
    parse_memory "q5" = .error "the character 'q' is not a number" :=
  ⟨by decide,
   (parse_memory_error_characterization.2.2 "q5"
       "the character 'q' is not a number" (by decide)).mpr
     (Or.inl (by decide))⟩

/-- A colon occurs in `a ++ ":" ++ b`. -/
theorem colon_mem_append_mid (a b : String) : ':' ∈ (a ++ ":" ++ b).data := by
  rw [String.data_append, String.data_append]
  exact List.mem_append_left _ (List.mem_append_right _ (by decide))

/-- A colon occurs in `"0:" ++ b`. -/
theorem colon_mem_prefix_zero (b : String) : ':' ∈ ("0:" ++ b).data := by
  rw [String.data_append]
  exact List.mem_append_left _ (by decide)

/-- A string containing a colon is not the string "0". -/
theorem ne_zero_str_of_colon (t : String) (h : ':' ∈ t.data) : t ≠ "0" := by
  intro he
  rw [he] at h
  exact absurd h (by decide)

/-- C4: for a whole-second duration `T`, `to_slurm_time` renders "0" at zero,
"0:{T}" below a minute, "{T/60}:{T%60}" below an hour, and
"{T/3600}:{(T/60)%60}:{T%60}" otherwise, with no day wrapping, so 561677
seconds (about 6.5 days) renders as "156:1:17". -/
theorem to_slurm_time_format :
    (∀ T : Nat, to_slurm_time ⟨T, 0⟩ =
      (if T = 0 then "0"
       else if T < 60 then "0:" ++ toString T
       else if T < 3600 then toString (T / 60) ++ ":" ++ toString (T % 60)
       else toString (T / 3600) ++ ":" ++ toString (T / 60 % 60) ++ ":" ++
         toString (T % 60))) ∧
    to_slurm_time ⟨561677, 0⟩ = "156:1:17" := by
  constructor
  · intro T
    unfold to_slurm_time
    dsimp only
    by_cases h0 : T = 0
    · subst h0
      simp
    · rw [if_neg (by simp [h0]), if_neg h0]
      have hmax : max T 1 = T := by omega
      rw [hmax]
      by_cases h60 : T < 60
      · rw [if_pos h60, if_pos h60]
      · rw [if_neg h60, if_neg h60]
        by_cases h3600 : T < 3600
        · have hq : T / 60 < 60 := by omega
          rw [if_pos hq, if_pos h3600]
        · have hq : ¬ T / 60 < 60 := by omega
          rw [if_neg hq, if_neg h3600, Nat.div_div_eq_div_mul]
  · decide

/-- C6: a positive duration never renders as "0" — the output is "0" exactly
for the zero duration, and a positive sub-second duration renders as the
one-second minimum "0:1". -/
theorem to_slurm_time_positive (d : Duration) :
    (to_slurm_time d = "0" ↔ d.secs = 0 ∧ d.nanos = 0) ∧
    (d.secs = 0 → 0 < d.nanos → to_slurm_time d = "0:1") := by
  constructor
  · constructor
    · intro h
      by_contra hnz
      unfold to_slurm_time at h
      rw [if_neg hnz] at h
      dsimp only at h
      by_cases h60 : max d.secs 1 < 60
      · rw [if_pos h60] at h
        exact ne_zero_str_of_colon _ (colon_mem_prefix_zero _) h
      · rw [if_neg h60] at h
        by_cases h2 : max d.secs 1 / 60 < 60
        · rw [if_pos h2] at h
          exact ne_zero_str_of_colon _ (colon_mem_append_mid _ _) h
        · rw [if_neg h2] at h
          exact ne_zero_str_of_colon _ (colon_mem_append_mid _ _) h
    · intro hz
      unfold to_slurm_time
      rw [if_pos ⟨hz.1, hz.2⟩]
  · intro h1 h2
    unfold to_slurm_time
    rw [if_neg (by omega)]
    dsimp only
    rw [show max d.secs 1 = 1 from by omega]
    rw [if_pos (by norm_num)]
    decide

/-- Witness for C6 at the repository's own test input: 6 milliseconds is
positive and sub-second, and renders as "0:1", not "0". -/
theorem to_slurm_time_positive_witness :
    to_slurm_time ⟨0, 6000000⟩ = "0:1" :=
  (to_slurm_time_positive ⟨0, 6000000⟩).2 rfl (by decide)

/-- Splitting a list free of the separator yields a single field. -/
theorem splitChar_not_mem (sep : Char) (l : List Char) (h : sep ∉ l) :
    splitChar sep l = [l] := by
  induction l with
  | nil => rfl
  | cons c cs ih =>
    have hc : ¬ c = sep := fun e => h (e ▸ List.mem_cons_self _ _)
    rw [splitChar, if_neg hc, ih (fun hm => h (List.mem_cons_of_mem _ hm))]

/-- Splitting around an explicit separator occurrence peels off the first
field. -/
theorem splitChar_append (sep : Char) (a b : List Char) (h : sep ∉ a) :
    splitChar sep (a ++ sep :: b) = a :: splitChar sep b := by
  induction a with
  | nil =>
    rw [List.nil_append, splitChar, if_pos rfl]
  | cons c cs ih =>
    have hc : ¬ c = sep := fun e => h (e ▸ List.mem_cons_self _ _)
    rw [List.cons_append, splitChar, if_neg hc,
      ih (fun hm => h (List.mem_cons_of_mem _ hm))]

/-- Every digit emitted by `Nat.digitChar` below base 10 is a digit
character. -/
theorem digitChar_isDigit (m : Nat) (h : m < 10) :
    (Nat.digitChar m).isDigit = true := by
  interval_cases m <;> decide

/-- `Nat.toDigitsCore` in base 10 only prepends digit characters. -/
theorem toDigitsCore_digits (fuel : Nat) :
    ∀ (n : Nat) (acc : List Char), (∀ c ∈ acc, c.isDigit = true) →
      ∀ c ∈ Nat.toDigitsCore 10 fuel n acc, c.isDigit = true := by
  induction fuel with
  | zero =>
    intro n acc hacc c hc
    rw [Nat.toDigitsCore] at hc
    exact hacc c hc
  | succ f ih =>
    intro n acc hacc c hc
    rw [Nat.toDigitsCore] at hc
    have hcons : ∀ c ∈ Nat.digitChar (n % 10) :: acc, c.isDigit = true := by
      intro c2 hc2
      cases hc2 with
      | head => exact digitChar_isDigit _ (Nat.mod_lt _ (by norm_num))
      | tail _ hmem => exact hacc _ hmem
    by_cases h0 : n / 10 = 0
    · rw [if_pos h0] at hc
      exact hcons c hc
    · rw [if_neg h0] at hc
      exact ih (n / 10) _ hcons c hc

/-- `Nat.toDigitsCore` never returns an empty list from a nonempty
accumulator. -/
theorem toDigitsCore_ne_nil (fuel : Nat) :
    ∀ (n : Nat) (acc : List Char), acc ≠ [] →
      Nat.toDigitsCore 10 fuel n acc ≠ [] := by
  induction fuel with
  | zero =>
    intro n acc hacc
    rw [Nat.toDigitsCore]
    exact hacc
  | succ f ih =>
    intro n acc hacc
    rw [Nat.toDigitsCore]
    by_cases h0 : n / 10 = 0
    · rw [if_pos h0]
      exact List.cons_ne_nil _ _
    · rw [if_neg h0]
      exact ih _ _ (List.cons_ne_nil _ _)

/-- The decimal representation of a natural number consists of digit
characters. -/
theorem repr_data_digits (n : Nat) :
    ∀ c ∈ (Nat.repr n).data, c.isDigit = true := by
  have hd : (Nat.repr n).data = Nat.toDigits 10 n := rfl
  rw [hd, Nat.toDigits]
  exact toDigitsCore_digits _ _ _ (by simp)

/-- The decimal representation of a natural number is nonempty. -/
theorem repr_data_ne_nil (n : Nat) : (Nat.repr n).data ≠ [] := by
  have hd : (Nat.repr n).data = Nat.toDigits 10 n := rfl
  rw [hd, Nat.toDigits, Nat.toDigitsCore]
  by_cases h0 : n / 10 = 0
  · rw [if_pos h0]
    exact List.cons_ne_nil _ _
  · rw [if_neg h0]
    exact toDigitsCore_ne_nil _ _ _ (List.cons_ne_nil _ _)

/-- The decimal representation of a natural number is a valid numeric field
of the slurm-time grammar. -/
theorem numField_repr (n : Nat) : numField (Nat.repr n).data = true := by
  unfold numField
  rw [Bool.and_eq_true]
  constructor
  · rw [Bool.not_eq_true']
    cases hd : (Nat.repr n).data with
    | nil => exact absurd hd (repr_data_ne_nil n)
    | cons c cs => rfl
  · rw [List.all_eq_true]
    intro c hc
    exact repr_data_digits n c hc

/-- `toString` on naturals is decimal representation. -/
theorem toString_nat (n : Nat) : toString n = Nat.repr n := rfl

/-- Digit characters are not colons. -/
theorem ne_of_isDigit_colon {c : Char} (h : c.isDigit = true) : c ≠ ':' := by
  intro e
  subst e
  exact absurd h (by decide)

/-- Digit characters are not dashes. -/
theorem ne_of_isDigit_dash {c : Char} (h : c.isDigit = true) : c ≠ '-' := by
  intro e
  subst e
  exact absurd h (by decide)

/-- No dash occurs in a decimal representation. -/
theorem dash_not_mem_repr (n : Nat) : '-' ∉ (Nat.repr n).data := by
  intro h
  exact ne_of_isDigit_dash (repr_data_digits n '-' h) rfl

/-- No colon occurs in a decimal representation. -/
theorem colon_not_mem_repr (n : Nat) : ':' ∉ (Nat.repr n).data := by
  intro h
  exact ne_of_isDigit_colon (repr_data_digits n ':' h) rfl

/-- The fast path of `parse_time`: a grammar match is returned unchanged,
for every choice of external free-form parser. -/
theorem parse_time_of_match (dp : String → Except String Duration)
    (s : String) (h : slurmTimeMatch s = true) : parse_time dp s = .ok s := by
  unfold parse_time
  rw [if_pos h]

/-- Every `to_slurm_time` output for a duration of at least one second
matches the slurm-time grammar. -/
theorem slurmTimeMatch_to_slurm_time (d : Duration) (h : 1 ≤ d.secs) :
    slurmTimeMatch (to_slurm_time d) = true := by
  unfold to_slurm_time
  rw [if_neg (by omega)]
  dsimp only
  rw [show max d.secs 1 = d.secs from by omega]
  by_cases h60 : d.secs < 60
  · rw [if_pos h60]
    unfold slurmTimeMatch
    have hdata : ("0:" ++ toString d.secs).data =
        ['0'] ++ ':' :: (Nat.repr d.secs).data := by
      rw [String.data_append]
      rfl
    rw [hdata]
    have hnodash : '-' ∉ ['0'] ++ ':' :: (Nat.repr d.secs).data := by
      intro hm
      rcases List.mem_append.mp hm with hm | hm
      · exact absurd hm (by decide)
      · rcases List.mem_cons.mp hm with hm | hm
        · exact absurd hm (by decide)
        · exact dash_not_mem_repr _ hm
    rw [splitChar_not_mem _ _ hnodash]
    dsimp only
    rw [splitChar_append ':' ['0'] _ (by decide),
      splitChar_not_mem ':' _ (colon_not_mem_repr _)]
    unfold colonPartOk
    simp [numField_repr, numField]
    exact Or.inr ⟨repr_data_ne_nil _, repr_data_digits _⟩
  · rw [if_neg h60]
    by_cases h2 : d.secs / 60 < 60
    · rw [if_pos h2]
      unfold slurmTimeMatch
      have hdata : (toString (d.secs / 60) ++ ":" ++ toString (d.secs % 60)).data =
          (Nat.repr (d.secs / 60)).data ++ ':' :: (Nat.repr (d.secs % 60)).data := by
        simp [String.data_append, List.append_assoc]
        rfl
      rw [hdata]
      have hnodash : '-' ∉ (Nat.repr (d.secs / 60)).data ++
          ':' :: (Nat.repr (d.secs % 60)).data := by
        intro hm
        rcases List.mem_append.mp hm with hm | hm
        · exact dash_not_mem_repr _ hm
        · rcases List.mem_cons.mp hm with hm | hm
          · exact absurd hm (by decide)
          · exact dash_not_mem_repr _ hm
      rw [splitChar_not_mem _ _ hnodash]
      dsimp only
      rw [splitChar_append ':' _ _ (colon_not_mem_repr _),
        splitChar_not_mem ':' _ (colon_not_mem_repr _)]
      unfold colonPartOk
      simp [numField_repr]
    · rw [if_neg h2]
      unfold slurmTimeMatch
      have hdata : (toString (d.secs / 60 / 60) ++ ":" ++ toString (d.secs / 60 % 60)
            ++ ":" ++ toString (d.secs % 60)).data =
          (Nat.repr (d.secs / 60 / 60)).data ++
            ':' :: ((Nat.repr (d.secs / 60 % 60)).data ++
              ':' :: (Nat.repr (d.secs % 60)).data) := by
        simp [String.data_append, List.append_assoc]
        rfl
      rw [hdata]
      have hnodash : '-' ∉ (Nat.repr (d.secs / 60 / 60)).data ++
          ':' :: ((Nat.repr (d.secs / 60 % 60)).data ++
            ':' :: (Nat.repr (d.secs % 60)).data) := by
        intro hm
        rcases List.mem_append.mp hm with hm | hm
        · exact dash_not_mem_repr _ hm
        · rcases List.mem_cons.mp hm with hm | hm
          · exact absurd hm (by decide)
          · rcases List.mem_append.mp hm with hm | hm
            · exact dash_not_mem_repr _ hm
            · rcases List.mem_cons.mp hm with hm | hm
              · exact absurd hm (by decide)
              · exact dash_not_mem_repr _ hm
      rw [splitChar_not_mem _ _ hnodash]
      dsimp only
      rw [splitChar_append ':' _ _ (colon_not_mem_repr _),
        splitChar_append ':' _ _ (colon_not_mem_repr _),
        splitChar_not_mem ':' _ (colon_not_mem_repr _)]
      unfold colonPartOk
      simp [numField_repr]

/-- C3: every input already matching the scheduler grammar — optional
digits-then-dash days prefix, zero to two colon-separated numeric fields
and an optional final numeric field — is returned unchanged by the
duration normalizer, for any external free-form parser. -/
theorem parse_time_grammar_passthrough (dp : String → Except String Duration)
    (s : String) (h : slurmTimeMatch s = true) : parse_time dp s = .ok s :=
  parse_time_of_match dp s h

/-- Witness for C3 at the single bare digit "3". -/
theorem parse_time_grammar_passthrough_witness :
    slurmTimeMatch "3" = true ∧ parse_time noFreeform "3" = .ok "3" :=
  ⟨by decide, parse_time_grammar_passthrough noFreeform "3" (by decide)⟩

/-- C9: the degenerate inputs "", "1-" and "5:" all match the all-optional
fast-path grammar and are returned unchanged, for any external parser. -/
theorem parse_time_degenerate_passthrough
    (dp : String → Except String Duration) :
    parse_time dp "" = .ok "" ∧ parse_time dp "1-" = .ok "1-" ∧
    parse_time dp "5:" = .ok "5:" :=
  ⟨parse_time_of_match dp "" (by decide),
   parse_time_of_match dp "1-" (by decide),
   parse_time_of_match dp "5:" (by decide)⟩

/-- C7: for every duration of at least one second, the normalized output
re-fed to the duration normalizer is returned unchanged (idempotence via
the fast path), for any external free-form parser. -/
theorem parse_time_idempotent (dp : String → Except String Duration)
    (d : Duration) (h : 1 ≤ d.secs) :
    parse_time dp (to_slurm_time d) = .ok (to_slurm_time d) :=
  parse_time_of_match dp _ (slurmTimeMatch_to_slurm_time d h)

/-- Witness for C7 at 561677 seconds, whose rendering "156:1:17" passes
through unchanged. -/
theorem parse_time_idempotent_witness :
    1 ≤ (Duration.mk 561677 0).secs ∧
    parse_time noFreeform (to_slurm_time ⟨561677, 0⟩) =
      .ok (to_slurm_time ⟨561677, 0⟩) ∧
    to_slurm_time ⟨561677, 0⟩ = "156:1:17" :=
  ⟨by decide, parse_time_idempotent noFreeform ⟨561677, 0⟩ (by decide),
   by decide⟩

/-- The memory directive pattern of the submission script. -/
def memDirectivePat : List Char := "#SBATCH --mem=".data

/-- A script line is a memory directive when it starts with the memory
directive pattern. -/
def isMemDirective (l : String) : Bool := memDirectivePat.isPrefixOf l.data

/-- A list is a prefix of itself extended by anything. -/
theorem isPrefixOf_append_self (l t : List Char) :
    l.isPrefixOf (l ++ t) = true := by
  induction l with
  | nil => simp
  | cons c cs ih => simp [List.isPrefixOf_cons₂, ih]

/-- The memory line is a memory directive, whatever the memory value. -/
theorem isMemDirective_mem (m : String) :
    isMemDirective ("#SBATCH --mem=" ++ m) = true := by
  unfold isMemDirective
  rw [String.data_append]
  exact isPrefixOf_append_self memDirectivePat m.data

/-- The job-name line is never a memory directive. -/
theorem isMemDirective_job (name : String) :
    isMemDirective ("#SBATCH --job-name=" ++ name) = false := rfl

/-- The time line is never a memory directive. -/
theorem isMemDirective_time (t : String) :
    isMemDirective ("#SBATCH --time=" ++ t) = false := rfl

/-- The error-path line is never a memory directive. -/
theorem isMemDirective_error (e : String) :
    isMemDirective ("#SBATCH --error=" ++ e) = false := rfl

/-- The output-path line is never a memory directive. -/
theorem isMemDirective_output (o : String) :
    isMemDirective ("#SBATCH --output=" ++ o) = false := rfl

/-- The empty line is not a memory directive. -/
theorem isMemDirective_empty : isMemDirective "" = false := rfl

/-- The shell-options line is never a memory directive. -/
theorem isMemDirective_set_line (so : String) :
    isMemDirective (set_line so) = false := by
  unfold set_line
  by_cases h : so = ""
  · rw [if_pos h]
    rfl
  · rw [if_neg h]
    rfl

/-- C5: with memory "0" the rendered script drops exactly the memory
directive line (the third line), its line count is one less than for any
non-"0" memory value with every other line identical, it contains zero
memory-directive lines, and the non-"0" rendering contains exactly one. -/
theorem script_memory_omission
    (shebang set_opts name m time error output command : String)
    (hm : m ≠ "0")
    (hsb : isMemDirective shebang = false)
    (hcmd : isMemDirective command = false) :
    script_lines shebang set_opts name "0" time error output command =
      (script_lines shebang set_opts name m time error output command).eraseIdx 2 ∧
    (script_lines shebang set_opts name "0" time error output command).length + 1 =
      (script_lines shebang set_opts name m time error output command).length ∧
    (script_lines shebang set_opts name m time error output command).countP
      (fun l => isMemDirective l) = 1 ∧
    (script_lines shebang set_opts name "0" time error output command).countP
      (fun l => isMemDirective l) = 0 ∧
    make_submission_script shebang set_opts name m time error output command =
      String.intercalate "\n"
        (script_lines shebang set_opts name m time error output command) ++ "\n" := by
  refine ⟨?_, ?_, ?_, ?_, rfl⟩
  · unfold script_lines
    rw [if_neg hm, if_pos rfl]
    rfl
  · unfold script_lines
    rw [if_neg hm, if_pos rfl]
    rfl
  · unfold script_lines
    rw [if_neg hm]
    simp [List.countP_cons, hsb, hcmd, isMemDirective_mem, isMemDirective_job,
      isMemDirective_time, isMemDirective_error, isMemDirective_output,
      isMemDirective_set_line, isMemDirective_empty]
  · unfold script_lines
    rw [if_pos rfl]
    simp [List.countP_cons, hsb, hcmd, isMemDirective_job,
      isMemDirective_time, isMemDirective_error, isMemDirective_output,
      isMemDirective_set_line, isMemDirective_empty]

/-- Witness for C5 at the spec's end-to-end example values. -/
theorem script_memory_omission_witness :
    "1M" ≠ "0" ∧ isMemDirective "#!/bin/bash" = false ∧
    isMemDirective "python script.py" = false ∧
    script_lines "#!/bin/bash" "eux" "job" "0" "5:56:00" "%x.err" "%x.out"
        "python script.py" =
      (script_lines "#!/bin/bash" "eux" "job" "1M" "5:56:00" "%x.err" "%x.out"
        "python script.py").eraseIdx 2 :=
  ⟨by decide, by decide, by decide,
   (script_memory_omission "#!/bin/bash" "eux" "job" "1M" "5:56:00" "%x.err"
      "%x.out" "python script.py" (by decide) (by decide) (by decide)).1⟩

/-- Witness for C4: a sub-minute and an exactly-6.5-day instantiation of the
format rule (the latter showing the unwrapped hour count). -/
theorem to_slurm_time_format_witness :
    to_slurm_time ⟨59, 0⟩ = "0:59" ∧ to_slurm_time ⟨561600, 0⟩ = "156:0:0" :=
  ⟨(to_slurm_time_format.1 59).trans (by decide),
   (to_slurm_time_format.1 561600).trans (by decide)⟩

/-- Witness for C9 at the stand-in external parser. -/
theorem parse_time_degenerate_passthrough_witness :
    parse_time noFreeform "" = .ok "" ∧ parse_time noFreeform "1-" = .ok "1-" ∧
    parse_time noFreeform "5:" = .ok "5:" :=
  parse_time_degenerate_passthrough noFreeform
